import Mathlib

/-!
Shallow embedding of the node-knife4j-ui documentation adapter.

The repository ships a small middleware class (Knife4jDoc) in two revisions:

* the current revision (src/src/index.ts) serves the service-discovery
  manifest at /services.json and a deep copy of the stored Swagger/OpenAPI
  document at {prefix}/swagger.json, and otherwise delegates to the next
  handler;
* the legacy revision (src/unnamed/part_000) serves tag-grouped discovery at
  /v3/api-docs/swagger-config and /swagger-resources, and tag-filtered
  documents under /api-docs/, mutating the shared stored document in the
  process.

Documents are arbitrary JSON values, so the embedding works over an untyped
JSON value type.  JavaScript objects are modelled as insertion-ordered
association lists (real JS objects have unique keys; the operations below
read the first occurrence and write in place, which agrees with JS on
unique-key objects).  Handlers become pure functions from the stored
document and the request to an outcome (a JSON response with a status, or a
call to the continuation) paired with the stored document after the request,
which makes the legacy revision's in-place mutation observable.
-/

/-- A JSON value: the runtime values a Knife4jDoc instance can hold.  Object
fields are kept in insertion order, as JavaScript enumeration does. -/
inductive Json where
  | null
  | bool (b : Bool)
  | num (n : Int)
  | str (s : String)
  | arr (elems : List Json)
  | obj (fields : List (String × Json))

mutual

/-- Decidable equality on JSON values (structural deep equality, which is what
a JSON round trip preserves and what deep-equal assertions compare). -/
def Json.decEq : (a b : Json) → Decidable (a = b)
  | .null, .null => isTrue rfl
  | .null, .bool _ => isFalse (fun h => nomatch h)
  | .null, .num _ => isFalse (fun h => nomatch h)
  | .null, .str _ => isFalse (fun h => nomatch h)
  | .null, .arr _ => isFalse (fun h => nomatch h)
  | .null, .obj _ => isFalse (fun h => nomatch h)
  | .bool _, .null => isFalse (fun h => nomatch h)
  | .bool a, .bool b =>
    if h : a = b then isTrue (by rw [h])
    else isFalse (fun hh => h (by injection hh))
  | .bool _, .num _ => isFalse (fun h => nomatch h)
  | .bool _, .str _ => isFalse (fun h => nomatch h)
  | .bool _, .arr _ => isFalse (fun h => nomatch h)
  | .bool _, .obj _ => isFalse (fun h => nomatch h)
  | .num _, .null => isFalse (fun h => nomatch h)
  | .num _, .bool _ => isFalse (fun h => nomatch h)
  | .num a, .num b =>
    if h : a = b then isTrue (by rw [h])
    else isFalse (fun hh => h (by injection hh))
  | .num _, .str _ => isFalse (fun h => nomatch h)
  | .num _, .arr _ => isFalse (fun h => nomatch h)
  | .num _, .obj _ => isFalse (fun h => nomatch h)
  | .str _, .null => isFalse (fun h => nomatch h)
  | .str _, .bool _ => isFalse (fun h => nomatch h)
  | .str _, .num _ => isFalse (fun h => nomatch h)
  | .str a, .str b =>
    if h : a = b then isTrue (by rw [h])
    else isFalse (fun hh => h (by injection hh))
  | .str _, .arr _ => isFalse (fun h => nomatch h)
  | .str _, .obj _ => isFalse (fun h => nomatch h)
  | .arr _, .null => isFalse (fun h => nomatch h)
  | .arr _, .bool _ => isFalse (fun h => nomatch h)
  | .arr _, .num _ => isFalse (fun h => nomatch h)
  | .arr _, .str _ => isFalse (fun h => nomatch h)
  | .arr xs, .arr ys =>
    match Json.decEqList xs ys with
    | isTrue h => isTrue (by rw [h])
    | isFalse h => isFalse (fun hh => h (by injection hh))
  | .arr _, .obj _ => isFalse (fun h => nomatch h)
  | .obj _, .null => isFalse (fun h => nomatch h)
  | .obj _, .bool _ => isFalse (fun h => nomatch h)
  | .obj _, .num _ => isFalse (fun h => nomatch h)
  | .obj _, .str _ => isFalse (fun h => nomatch h)
  | .obj _, .arr _ => isFalse (fun h => nomatch h)
  | .obj fs, .obj gs =>
    match Json.decEqFields fs gs with
    | isTrue h => isTrue (by rw [h])
    | isFalse h => isFalse (fun hh => h (by injection hh))

/-- Elementwise decidable equality for JSON arrays. -/
def Json.decEqList : (xs ys : List Json) → Decidable (xs = ys)
  | [], [] => isTrue rfl
  | [], _ :: _ => isFalse (fun h => nomatch h)
  | _ :: _, [] => isFalse (fun h => nomatch h)
  | x :: xs, y :: ys =>
    match Json.decEq x y, Json.decEqList xs ys with
    | isTrue h1, isTrue h2 => isTrue (by rw [h1, h2])
    | isFalse h1, _ => isFalse (fun h => h1 (by injection h))
    | _, isFalse h2 => isFalse (fun h => h2 (by injection h))

/-- Fieldwise decidable equality for JSON object field lists. -/
def Json.decEqFields : (fs gs : List (String × Json)) → Decidable (fs = gs)
  | [], [] => isTrue rfl
  | [], _ :: _ => isFalse (fun h => nomatch h)
  | _ :: _, [] => isFalse (fun h => nomatch h)
  | (k, v) :: fs, (l, w) :: gs =>
    if h1 : k = l then
      match Json.decEq v w, Json.decEqFields fs gs with
      | isTrue h2, isTrue h3 => isTrue (by rw [h1, h2, h3])
      | isFalse h2, _ =>
        isFalse (fun h => h2 (by injection h with hp ht; injection hp))
      | _, isFalse h3 => isFalse (fun h => h3 (by injection h))
    else
      isFalse (fun h => h1 (by injection h with hp ht; injection hp))

end

instance : DecidableEq Json := Json.decEq

/-- First binding of a key in a JS object's field list (JS objects have unique
keys, so the first binding is the binding). -/
def lookupFirst (k : String) : List (String × Json) → Option Json
  | [] => none
  | (k', v) :: fs => if k' = k then some v else lookupFirst k fs

/-- Property write on a JS object's field list: overwrite the existing binding
in place (keeping insertion order) or append a new one, as JS assignment does. -/
def setField (fs : List (String × Json)) (k : String) (v : Json) :
    List (String × Json) :=
  match fs with
  | [] => [(k, v)]
  | (k', v') :: rest =>
    if k' = k then (k', v) :: rest else (k', v') :: setField rest k v

/-- JavaScript truthiness of a value (used by the source's guards such as
`if (swaggerDocs.paths)` and `operation && operation.tags`). -/
def jsTruthy : Json → Bool
  | .null => false
  | .bool b => b
  | .num n => n != 0
  | .str s => s != ("")
  | .arr _ => true
  | .obj _ => true

/-- Named property read, `value.key`.  Only objects carry the named properties
the source reads (paths, tags, urls, ...); arrays and strings expose only
indices and `length`, and reading a property off any other value yields
undefined (modelled as `none`). -/
def getProp (j : Json) (k : String) : Option Json :=
  match j with
  | .obj fs => lookupFirst k fs
  | _ => none

/-- Named property write, `value.key = v`.  Writing to a primitive is a silent
no-op in non-strict JS; the source only ever writes to objects. -/
def setProp (j : Json) (k : String) (v : Json) : Json :=
  match j with
  | .obj fs => .obj (setField fs k v)
  | other => other

/-- The `for (const k in v)` enumeration with `hasOwnProperty` filtering, as
the source's traversal loops use it: an object's own fields in insertion
order; an array's indices; a string's character indices; nothing for other
values. -/
def jsEntries : Json → List (String × Json)
  | .obj fs => fs
  | .arr xs => xs.enum.map (fun p => (toString p.1, p.2))
  | .str s => s.data.enum.map (fun p => (toString p.1, Json.str (String.singleton p.2)))
  | _ => []

mutual

/-- `JSON.parse(JSON.stringify(v))`: rebuilds the value structurally, yielding
a fresh value deep-equal to the input (the model has no undefined or function
members, so the round trip loses nothing). -/
def deepCopy : Json → Json
  | .null => .null
  | .bool b => .bool b
  | .num n => .num n
  | .str s => .str s
  | .arr xs => .arr (deepCopyList xs)
  | .obj fs => .obj (deepCopyFields fs)

/-- Deep copy of a JSON array's elements. -/
def deepCopyList : List Json → List Json
  | [] => []
  | x :: xs => deepCopy x :: deepCopyList xs

/-- Deep copy of a JSON object's fields. -/
def deepCopyFields : List (String × Json) → List (String × Json)
  | [] => []
  | (k, v) :: fs => (k, deepCopy v) :: deepCopyFields fs

end

/-- Escape of one character inside a JSON string literal (the two escapes that
matter for the values this adapter produces; JSON.stringify additionally
escapes control characters, which determinism arguments do not depend on). -/
def escapeChar (c : Char) : String :=
  if c == '\\' then ("\\\\") else if c == '"' then ("\\\"") else String.singleton c

/-- Escape of a full string for inclusion in serialized JSON. -/
def escapeString (s : String) : String :=
  String.join (s.data.map escapeChar)

mutual

/-- Deterministic JSON serialization in the shape of `JSON.stringify`: no
whitespace, object fields in insertion order.  Two deep-equal values
serialize to byte-identical text. -/
def jsonStringify : Json → String
  | .null => ("null")
  | .bool true => ("true")
  | .bool false => ("false")
  | .num n => toString n
  | .str s => ("\"") ++ escapeString s ++ ("\"")
  | .arr xs => ("[") ++ String.intercalate (",") (stringifyList xs) ++ ("]")
  | .obj fs => ("\x7b") ++ String.intercalate (",") (stringifyFields fs) ++ ("\x7d")

/-- Serialization of an array's elements. -/
def stringifyList : List Json → List String
  | [] => []
  | x :: xs => jsonStringify x :: stringifyList xs

/-- Serialization of an object's fields. -/
def stringifyFields : List (String × Json) → List String
  | [] => []
  | (k, v) :: fs =>
    (("\"") ++ escapeString k ++ ("\":") ++ jsonStringify v) :: stringifyFields fs

end

/-- An inbound request as the middleware sees it: the url string compared by
the handlers, and the optional `groupName` query parameter read by the legacy
revision (absent parameter = `none`). -/
structure Request where
  url : String
  groupName : Option String

/-- What one middleware invocation does: respond with a JSON body and a
status (200 for the implicit success status of `res.json` / a Koa body
assignment, 500 for the error branch), or invoke the continuation `next`
without writing anything. -/
inductive Outcome where
  | respond (status : Nat) (body : Json)
  | next
deriving DecidableEq

/-- The structured error body both revisions produce when the stored document
is invalid. -/
def errorBody : Json :=
  .obj [(("error"), .str ("Swagger configuration is not available")),
        (("message"),
          .str ("Please check if swaggerJson was properly passed to Knife4jDoc constructor"))]

/-- The guard `!swaggerJson || typeof swaggerJson !== "object"`, negated: the
stored value passes iff it is an object in the JS sense (including arrays;
null is falsy and every other JSON primitive has a different typeof). -/
def isValidDoc : Json → Bool
  | .obj _ => true
  | .arr _ => true
  | _ => false

/-- `path.join` as the source uses it on already-clean segments. -/
def pathJoin (a b : String) : String := a ++ ("/") ++ b

/-- `getSwagger()`: the filesystem location string placed in the service
descriptor, `path.join(process.cwd(), "static/swagger.json")`; the working
directory is threaded in as a parameter. -/
def getSwagger (cwd : String) : String := pathJoin cwd ("static/swagger.json")

/-- `getKnife4jUiPath()`: the bundled static viewer UI asset root. -/
def getKnife4jUiPath (cwd : String) : String :=
  pathJoin cwd ("node_modules/node-knife4j-ui/static")

/-- The one-element service list the current revision answers on
/services.json. -/
def servicesBody (name pfx cwd : String) : Json :=
  .arr [.obj [(("name"), .str name),
              (("url"), .str (pfx ++ ("/swagger.json"))),
              (("location"), .str (getSwagger cwd)),
              (("swaggerVersion"), .str ("3.0.0"))]]

/-- The current revision's Express middleware (src/src/index.ts,
serveExpress): validity guard, then /services.json, then
{prefix}/swagger.json served from a deep copy, else `next()`.  Returns the
outcome together with the stored document after the invocation. -/
def serveExpress (doc : Json) (name pfx cwd : String) (req : Request) :
    Outcome × Json :=
  if !isValidDoc doc then (.respond 500 errorBody, doc)
  else
    let swaggerDocs := deepCopy doc
    if req.url = ("/services.json") then
      (.respond 200 (servicesBody name pfx cwd), doc)
    else if req.url = pfx ++ ("/swagger.json") then
      (.respond 200 swaggerDocs, doc)
    else (.next, doc)

/-- The current revision's Koa middleware (src/src/index.ts, serveKoa): the
same classification, writing ctx.status/ctx.body instead of res and awaiting
`next()` when unhandled. -/
def serveKoa (doc : Json) (name pfx cwd : String) (req : Request) :
    Outcome × Json :=
  if !isValidDoc doc then (.respond 500 errorBody, doc)
  else
    let swaggerDocs := deepCopy doc
    if req.url = ("/services.json") then
      (.respond 200 (servicesBody name pfx cwd), doc)
    else if req.url = pfx ++ ("/swagger.json") then
      (.respond 200 swaggerDocs, doc)
    else (.next, doc)

/-- `String.prototype.startsWith`. -/
def jsStartsWith (s pre : String) : Bool := pre.data.isPrefixOf s.data

/-- One `Set.add`: JS sets keep first-insertion order and ignore repeats. -/
def insertUnique (acc : List String) (t : String) : List String :=
  if t ∈ acc then acc else acc ++ [t]

/-- The string elements of a tags array (the declared SwaggerJson interface
types tags as string[]; a non-string element would be compared by the JS
=== the loops use, and never equals a group-name string). -/
def strElems : List Json → List String
  | [] => []
  | .str s :: ts => s :: strElems ts
  | _ :: ts => strElems ts

/-- The tag strings one operation contributes to the legacy traversal
(`operation && operation.tags` then `operation.tags.forEach`).  A truthy
tags value that is not an array would make the source throw (forEach is
array-only); theorems that quantify over documents therefore carry the
`wfDoc` hypothesis restricting to the declared document shape, under which
this branch is unreachable. -/
def opTagList (operation : Json) : List String :=
  if jsTruthy operation then
    match getProp operation ("tags") with
    | some tags =>
      if jsTruthy tags then
        match tags with
        | .arr ts => strElems ts
        | _ => []
      else []
    | none => []
  else []

/-- Every tag occurrence under document.paths, in traversal order (path
entries in order, method entries in order, tags in order), duplicates kept:
the stream of values the legacy traversal feeds into its Set. -/
def allTags (doc : Json) : List String :=
  match getProp doc ("paths") with
  | some ps =>
    if jsTruthy ps then
      (jsEntries ps).flatMap (fun pe => (jsEntries pe.2).flatMap (fun me => opTagList me.2))
    else []
  | none => []

/-- The distinct tags in first-occurrence order: the contents of the legacy
traversal's `uniqueTags` Set, enumerated in insertion order. -/
def collectTags (doc : Json) : List String := (allTags doc).foldl insertUnique []

/-- One group entry of the legacy discovery endpoints. -/
def groupEntry (pfx tag : String) : Json :=
  .obj [(("name"), .str tag),
        (("location"), .str (pfx ++ ("/api-docs/") ++ tag)),
        (("url"), .str (pfx ++ ("/api-docs/") ++ tag)),
        (("swaggerVersion"), .str ("3.0.0")),
        (("servicePath"), .str (""))]

/-- The legacy group list: the fixed 全部 (all) entry followed by one entry per
distinct tag. -/
def legacyGroups (pfx : String) (doc : Json) : List Json :=
  groupEntry pfx ("全部") :: (collectTags doc).map (groupEntry pfx)

/-- `tags.includes(groupName)` on a truthy tags value: array membership under
===, substring containment for a string, and a TypeError (unreachable under
`wfDoc`) for anything else. -/
def tagIncludes (tags : Json) (g : String) : Bool :=
  match tags with
  | .arr ts => ts.contains (.str g)
  | .str s => decide (g.data <:+: s.data)
  | _ => false

/-- The legacy filter's test on one operation:
`operation && operation.tags && operation.tags.includes(groupName)`. -/
def opMatchesTag (g : String) (operation : Json) : Bool :=
  jsTruthy operation &&
    (match getProp operation ("tags") with
     | some tags => jsTruthy tags && tagIncludes tags g
     | none => false)

/-- `groupPaths[path] = groupPaths[path] || \x7b\x7d; groupPaths[path][method]
= operation`: ensure the path's container exists, then add the method.  Only
objects are ever stored, so the middle case is unreachable. -/
def addToGroup (gp : List (String × Json)) (p m : String) (operation : Json) :
    List (String × Json) :=
  match lookupFirst p gp with
  | some (.obj mfs) => setField gp p (.obj (setField mfs m operation))
  | some _ => setField gp p (.obj [(m, operation)])
  | none => gp ++ [(p, .obj [(m, operation)])]

/-- One step of the legacy filter's inner loop over a path's methods. -/
def filterStep (g p : String) (gp : List (String × Json)) (me : String × Json) :
    List (String × Json) :=
  if opMatchesTag g me.2 then addToGroup gp p me.1 me.2 else gp

/-- The legacy filter's outer loop body for one path entry. -/
def filterPathEntry (g : String) (gp : List (String × Json)) (pe : String × Json) :
    List (String × Json) :=
  (jsEntries pe.2).foldl (filterStep g pe.1) gp

/-- The legacy per-tag filter: the `groupPaths` object built by the nested
loops over `swaggerDocs.paths` (skipped entirely when paths is absent or
falsy). -/
def filterPaths (g : String) (paths : Option Json) : List (String × Json) :=
  match paths with
  | some ps =>
    if jsTruthy ps then (jsEntries ps).foldl (filterPathEntry g) [] else []
  | none => []

/-- The legacy revision's Express middleware (src/unnamed/part_000,
serveExpress): validity guard; swagger-config attaches the group list to the
shared document under urls (mutating it); swagger-resources returns the
group list alone; /api-docs/ returns the document whole for 全部 and
otherwise replaces the shared document's paths with the filtered mapping
(mutating it); else `next()`.  The second component is the stored document
after the invocation, which the mutating branches change. -/
def legacyServeExpress (doc : Json) (pfx : String) (req : Request) :
    Outcome × Json :=
  if !isValidDoc doc then (.respond 500 errorBody, doc)
  else
    let groupName :=
      match req.groupName with
      | some g => if g = ("") then ("全部") else g
      | none => ("全部")
    if req.url = ("/v3/api-docs/swagger-config") then
      let doc' := setProp doc ("urls") (.arr (legacyGroups pfx doc))
      (.respond 200 doc', doc')
    else if req.url = ("/swagger-resources") then
      (.respond 200 (.arr (legacyGroups pfx doc)), doc)
    else if jsStartsWith req.url ("/api-docs/") then
      if groupName = ("全部") then (.respond 200 doc, doc)
      else
        let doc' := setProp doc ("paths") (.obj (filterPaths groupName (getProp doc ("paths"))))
        (.respond 200 doc', doc')
    else (.next, doc)

/-- The legacy revision's Koa middleware (src/unnamed/part_000, serveKoa):
identical classification and the same shared-document mutations. -/
def legacyServeKoa (doc : Json) (pfx : String) (req : Request) :
    Outcome × Json :=
  if !isValidDoc doc then (.respond 500 errorBody, doc)
  else
    let groupName :=
      match req.groupName with
      | some g => if g = ("") then ("全部") else g
      | none => ("全部")
    if req.url = ("/v3/api-docs/swagger-config") then
      let doc' := setProp doc ("urls") (.arr (legacyGroups pfx doc))
      (.respond 200 doc', doc')
    else if req.url = ("/swagger-resources") then
      (.respond 200 (.arr (legacyGroups pfx doc)), doc)
    else if jsStartsWith req.url ("/api-docs/") then
      if groupName = ("全部") then (.respond 200 doc, doc)
      else
        let doc' := setProp doc ("paths") (.obj (filterPaths groupName (getProp doc ("paths"))))
        (.respond 200 doc', doc')
    else (.next, doc)

/-- A value is a string. -/
def isStr : Json → Bool
  | .str _ => true
  | _ => false

/-- An operation's tags field, when present and truthy, is an array of
strings: the shape the declared SwaggerJson interface gives it.  Outside this
shape the source's forEach/includes calls throw, so document-quantified
theorems restrict to it. -/
def wfTags (operation : Json) : Bool :=
  match operation with
  | .obj fs =>
    match lookupFirst ("tags") fs with
    | some t => !jsTruthy t || (match t with | .arr ts => ts.all isStr | _ => false)
    | none => true
  | _ => true

/-- Every operation under document.paths has well-shaped tags. -/
def wfDoc (doc : Json) : Bool :=
  match getProp doc ("paths") with
  | some ps => (jsEntries ps).all (fun pe => (jsEntries pe.2).all (fun me => wfTags me.2))
  | none => true

/-- An operation carrying exactly the tag X: concrete data for counterexample
runs. -/
def opTaggedX : Json := .obj [(("tags"), .arr [.str ("X")])]

/-- An operation carrying exactly the tag Y: concrete data for counterexample
runs. -/
def opTaggedY : Json := .obj [(("tags"), .arr [.str ("Y")])]

/-- The paths mapping of the concrete scenario document: an X-tagged
operation under /a and a Y-tagged operation under /b. -/
def pathsXY : List (String × Json) :=
  [(("/a"), .obj [(("get"), opTaggedX)]),
   (("/b"), .obj [(("get"), opTaggedY)])]

/-- The field list of the concrete scenario document. -/
def dfsXY : List (String × Json) := [(("paths"), .obj pathsXY)]

/-- A concrete document with an X-tagged operation under /a and a Y-tagged
operation under /b, the shape the spec's legacy filtering scenario uses. -/
def docXY : Json := .obj dfsXY

/-- A concrete document whose operations share the tag Z across two paths,
exercising the dedup of the legacy tag traversal. -/
def docShared : Json :=
  .obj [(("paths"),
         .obj [(("/a"), .obj [(("get"), .obj [(("tags"), .arr [.str ("X"), .str ("Z")])])]),
               (("/b"), .obj [(("post"), .obj [(("tags"), .arr [.str ("Z")])])])])]

/-- String concatenation concatenates the character data. -/
theorem string_data_append (s t : String) : (s ++ t).data = s.data ++ t.data := rfl

/-- No prefixed swagger.json url collides with the service-discovery url, so
the order of the two equality checks in the handlers never shadows the
document route. -/
theorem prefix_swagger_ne_services (pfx : String) :
    pfx ++ ("/swagger.json") ≠ ("/services.json") := by
  intro h
  have hd : pfx.data ++ ("/swagger.json").data = ("/services.json").data := by
    rw [← string_data_append, h]
  have hlen := congrArg List.length hd
  simp [List.length_append] at hlen
  obtain ⟨c, hc⟩ := List.length_eq_one.mp hlen
  rw [hc] at hd
  have h0 := congrArg (List.get? · 0) hd
  simp [List.get?] at h0
  subst h0
  exact absurd hd (by decide)

mutual

/-- The JSON round trip is the identity on JSON values: the copy is
deep-equal to the original. -/
theorem deepCopy_eq : ∀ j : Json, deepCopy j = j
  | .null => rfl
  | .bool _ => rfl
  | .num _ => rfl
  | .str _ => rfl
  | .arr xs => congrArg Json.arr (deepCopyList_eq xs)
  | .obj fs => congrArg Json.obj (deepCopyFields_eq fs)

/-- Element lists round-trip unchanged. -/
theorem deepCopyList_eq : ∀ xs : List Json, deepCopyList xs = xs
  | [] => rfl
  | x :: xs => congrArg₂ List.cons (deepCopy_eq x) (deepCopyList_eq xs)

/-- Field lists round-trip unchanged. -/
theorem deepCopyFields_eq : ∀ fs : List (String × Json), deepCopyFields fs = fs
  | [] => rfl
  | (k, v) :: fs =>
    congrArg₂ List.cons (congrArg (Prod.mk k) (deepCopy_eq v)) (deepCopyFields_eq fs)

end

/-- Membership after one set insertion. -/
theorem mem_insertUnique (acc : List String) (x t : String) :
    t ∈ insertUnique acc x ↔ t ∈ acc ∨ t = x := by
  unfold insertUnique
  split
  · next h => exact ⟨Or.inl, fun h1 => h1.elim id (fun he => he ▸ h)⟩
  · simp [List.mem_append]

/-- Set insertion preserves distinctness. -/
theorem nodup_insertUnique (acc : List String) (x : String) (h : acc.Nodup) :
    (insertUnique acc x).Nodup := by
  unfold insertUnique
  split
  · exact h
  · next hx => simp [List.nodup_append, h, hx]

/-- Membership in a fold of set insertions: exactly the seeds and the
inserted elements. -/
theorem mem_foldl_insertUnique (t : String) :
    ∀ (l acc : List String), t ∈ l.foldl insertUnique acc ↔ t ∈ acc ∨ t ∈ l
  | [], acc => by simp
  | x :: l, acc => by
    rw [List.foldl_cons, mem_foldl_insertUnique t l (insertUnique acc x),
      mem_insertUnique]
    simp [List.mem_cons]
    tauto

/-- A fold of set insertions keeps the accumulator distinct. -/
theorem nodup_foldl_insertUnique :
    ∀ (l acc : List String), acc.Nodup → (l.foldl insertUnique acc).Nodup
  | [], _, h => h
  | x :: l, acc, h => by
    rw [List.foldl_cons]
    exact nodup_foldl_insertUnique l _ (nodup_insertUnique acc x h)

/-- Reading back the key just written returns the written value. -/
theorem lookupFirst_setField_self :
    ∀ (fs : List (String × Json)) (k : String) (v : Json),
      lookupFirst k (setField fs k v) = some v
  | [], k, v => by simp [setField, lookupFirst]
  | (k', v') :: fs, k, v => by
    unfold setField
    split
    · next h => simp [lookupFirst, h]
    · next h => simp [lookupFirst, h, lookupFirst_setField_self fs k v]

/-- Writing one key leaves the others' bindings unread. -/
theorem lookupFirst_setField_ne {k p : String} (h : k ≠ p) :
    ∀ (fs : List (String × Json)) (v : Json),
      lookupFirst p (setField fs k v) = lookupFirst p fs
  | [], v => by simp [setField, lookupFirst, h]
  | (k', v') :: fs, v => by
    unfold setField
    split
    · next he => simp [lookupFirst, he, h]
    · next he => simp [lookupFirst, lookupFirst_setField_ne h fs v]

/-- Lookup distributes over concatenation, first list first. -/
theorem lookupFirst_append (p : String) :
    ∀ (l1 l2 : List (String × Json)),
      lookupFirst p (l1 ++ l2) =
        (match lookupFirst p l1 with
         | some v => some v
         | none => lookupFirst p l2)
  | [], l2 => by simp [lookupFirst]
  | (k', v') :: l1, l2 => by
    by_cases hk : k' = p
    · simp [lookupFirst, hk]
    · simp [lookupFirst, hk, lookupFirst_append p l1 l2]

/-- The current Express middleware on the document route: a deep copy of the
stored document, stored state untouched. -/
theorem serveExpress_at_swagger (doc : Json) (name pfx cwd : String) (q : Option String)
    (h : isValidDoc doc = true) :
    serveExpress doc name pfx cwd ⟨pfx ++ ("/swagger.json"), q⟩ =
      (.respond 200 (deepCopy doc), doc) := by
  simp [serveExpress, h, prefix_swagger_ne_services pfx]

/-- Claim C1: on the current protocol, a request for \x7bP\x7d/swagger.json
is answered, for every valid stored document, with status 200 and a body that
is a deep copy of the stored document (the JSON round trip of it, rebuilt
structurally, not the stored value itself) and deep-equal to it; the request
is terminal (the continuation is not invoked) and the stored document is
unchanged. -/
theorem C1_swagger_json_deep_copy (doc : Json) (name pfx cwd : String)
    (q : Option String) (h : isValidDoc doc = true) :
    serveExpress doc name pfx cwd ⟨pfx ++ ("/swagger.json"), q⟩ =
      (.respond 200 (deepCopy doc), doc) ∧ deepCopy doc = doc :=
  ⟨serveExpress_at_swagger doc name pfx cwd q h, deepCopy_eq doc⟩

/-- Claim C1, instantiated at a concrete adapter and prefix. -/
theorem C1_witness :
    isValidDoc (Json.obj [(("info"), Json.str ("x"))]) = true ∧
    (serveExpress (Json.obj [(("info"), Json.str ("x"))]) ("API接口文档") ("/doc") ("/w")
        ⟨("/doc") ++ ("/swagger.json"), none⟩ =
      (.respond 200 (deepCopy (Json.obj [(("info"), Json.str ("x"))])),
       Json.obj [(("info"), Json.str ("x"))]) ∧
     deepCopy (Json.obj [(("info"), Json.str ("x"))]) = Json.obj [(("info"), Json.str ("x"))]) :=
  ⟨rfl, C1_swagger_json_deep_copy (Json.obj [(("info"), Json.str ("x"))])
    ("API接口文档") ("/doc") ("/w") none rfl⟩

/-- Claim C2: on the current protocol, /services.json is answered, for every
adapter holding a valid document, with a one-element list whose single
descriptor carries the adapter's display name, the url
\x7bP\x7d/swagger.json for the configured prefix, a location string, and
swaggerVersion exactly 3.0.0. -/
theorem C2_services_json_descriptor (doc : Json) (name pfx cwd : String)
    (q : Option String) (h : isValidDoc doc = true) :
    serveExpress doc name pfx cwd ⟨("/services.json"), q⟩ =
      (.respond 200
        (.arr [.obj [(("name"), .str name),
                     (("url"), .str (pfx ++ ("/swagger.json"))),
                     (("location"), .str (getSwagger cwd)),
                     (("swaggerVersion"), .str ("3.0.0"))]]),
       doc) := by
  simp [serveExpress, h, servicesBody]

/-- Claim C2, instantiated at a concrete adapter. -/
theorem C2_witness :
    isValidDoc (Json.obj []) = true ∧
    serveExpress (Json.obj []) ("API接口文档") ("/doc") ("/w") ⟨("/services.json"), none⟩ =
      (.respond 200
        (.arr [.obj [(("name"), .str ("API接口文档")),
                     (("url"), .str (("/doc") ++ ("/swagger.json"))),
                     (("location"), .str (getSwagger ("/w"))),
                     (("swaggerVersion"), .str ("3.0.0"))]]),
       Json.obj []) :=
  ⟨rfl, C2_services_json_descriptor (Json.obj []) ("API接口文档") ("/doc") ("/w") none rfl⟩

/-- Claim C3: when the stored document is not a valid object (null or any
other non-object value), both current middlewares answer every request —
whatever its path and query — with status 500 and the structured
\x7berror, message\x7d body, never invoking the continuation; the guard runs
before any path matching, and the handler is a total function, so no fault
escapes. -/
theorem C3_invalid_document_500 (doc : Json) (name pfx cwd : String) (req : Request)
    (h : isValidDoc doc = false) :
    serveExpress doc name pfx cwd req = (.respond 500 errorBody, doc) ∧
    serveKoa doc name pfx cwd req = (.respond 500 errorBody, doc) ∧
    errorBody =
      .obj [(("error"), .str ("Swagger configuration is not available")),
            (("message"),
             .str ("Please check if swaggerJson was properly passed to Knife4jDoc constructor"))] := by
  refine ⟨?_, ?_, rfl⟩ <;> simp [serveExpress, serveKoa, h]

/-- Claim C3, instantiated with a null document (the spec's construction-
bypass scenario) on an arbitrary path. -/
theorem C3_witness :
    isValidDoc Json.null = false ∧
    (serveExpress Json.null ("API接口文档") ("") ("/w") ⟨("/any/path"), none⟩ =
        (.respond 500 errorBody, Json.null) ∧
     serveKoa Json.null ("API接口文档") ("") ("/w") ⟨("/any/path"), none⟩ =
        (.respond 500 errorBody, Json.null) ∧
     errorBody =
      .obj [(("error"), .str ("Swagger configuration is not available")),
            (("message"),
             .str ("Please check if swaggerJson was properly passed to Knife4jDoc constructor"))]) :=
  ⟨rfl, C3_invalid_document_500 Json.null ("API接口文档") ("") ("/w")
    ⟨("/any/path"), none⟩ rfl⟩

/-- Claim C4: on the current protocol with a valid stored document, any
request whose path is neither /services.json nor \x7bP\x7d/swagger.json is
declined: the middleware invokes the continuation with no arguments, writes
no body and no status, and leaves the stored document unchanged. -/
theorem C4_unmatched_path_calls_next (doc : Json) (name pfx cwd : String)
    (req : Request) (h : isValidDoc doc = true)
    (h1 : req.url ≠ ("/services.json"))
    (h2 : req.url ≠ pfx ++ ("/swagger.json")) :
    serveExpress doc name pfx cwd req = (.next, doc) := by
  simp [serveExpress, h, h1, h2]

/-- Claim C4, instantiated at a path belonging to neither route. -/
theorem C4_witness :
    isValidDoc (Json.obj []) = true ∧
    ("/other") ≠ ("/services.json") ∧
    ("/other") ≠ ("") ++ ("/swagger.json") ∧
    serveExpress (Json.obj []) ("API接口文档") ("") ("/w") ⟨("/other"), none⟩ =
      (.next, Json.obj []) :=
  ⟨rfl, by decide, by decide,
    C4_unmatched_path_calls_next (Json.obj []) ("API接口文档") ("") ("/w")
      ⟨("/other"), none⟩ rfl (by decide) (by decide)⟩

/-- Claim C6: the Express-style and Koa-style middlewares of the current
revision agree on every adapter state and every request: same handled paths,
equal statuses, deep-equal (here: equal) bodies, and the same decline
outcome, with the same resulting stored document. -/
theorem C6_express_koa_equivalence (doc : Json) (name pfx cwd : String) (req : Request) :
    serveExpress doc name pfx cwd req = serveKoa doc name pfx cwd req := rfl

/-- Claim C10: on the current protocol, two consecutive \x7bP\x7d/swagger.json
requests against the same adapter (no mutation in between — and the handler
itself performs none) both succeed with status 200 and bodies whose JSON
serializations are byte-identical. -/
theorem C10_swagger_json_idempotent (doc : Json) (name pfx cwd : String)
    (q : Option String) (h : isValidDoc doc = true) :
    ∃ b1 b2 : Json,
      (serveExpress doc name pfx cwd ⟨pfx ++ ("/swagger.json"), q⟩).1 =
        .respond 200 b1 ∧
      (serveExpress (serveExpress doc name pfx cwd ⟨pfx ++ ("/swagger.json"), q⟩).2
          name pfx cwd ⟨pfx ++ ("/swagger.json"), q⟩).1 =
        .respond 200 b2 ∧
      jsonStringify b1 = jsonStringify b2 := by
  refine ⟨deepCopy doc, deepCopy doc, ?_, ?_, rfl⟩ <;>
    simp [serveExpress_at_swagger doc name pfx cwd q h]

/-- Claim C10, instantiated at a concrete adapter. -/
theorem C10_witness :
    isValidDoc (Json.obj [(("openapi"), Json.str ("3.0.0"))]) = true ∧
    (∃ b1 b2 : Json,
      (serveExpress (Json.obj [(("openapi"), Json.str ("3.0.0"))]) ("API接口文档") ("") ("/w")
          ⟨("") ++ ("/swagger.json"), none⟩).1 = .respond 200 b1 ∧
      (serveExpress
          (serveExpress (Json.obj [(("openapi"), Json.str ("3.0.0"))]) ("API接口文档") ("") ("/w")
            ⟨("") ++ ("/swagger.json"), none⟩).2
          ("API接口文档") ("") ("/w") ⟨("") ++ ("/swagger.json"), none⟩).1 = .respond 200 b2 ∧
      jsonStringify b1 = jsonStringify b2) :=
  ⟨rfl, C10_swagger_json_idempotent (Json.obj [(("openapi"), Json.str ("3.0.0"))])
    ("API接口文档") ("") ("/w") none rfl⟩

/-- Claim C5 (amended part): the current revision's middlewares never change
the stored document, whatever the request: both handlers operate on a deep
copy and write nothing back, so repeated requests cannot interfere. -/
theorem C5_current_handlers_preserve_document :
    ∀ (doc : Json) (name pfx cwd : String) (req : Request),
      (serveExpress doc name pfx cwd req).2 = doc ∧
      (serveKoa doc name pfx cwd req).2 = doc := by
  intro doc name pfx cwd req
  constructor <;> simp only [serveExpress, serveKoa] <;> (repeat' split) <;> rfl

/-- Claim C5 (counterexample): the legacy revision's tag-filtered request
mutates the stored document — after serving /api-docs/X?groupName=X the
adapter no longer holds the original document, and a subsequent 全部 (all)
request returns the filtered document instead of the original. -/
theorem C5_counterexample_legacy_filter_mutates :
    (legacyServeExpress docXY ("") ⟨("/api-docs/X"), some ("X")⟩).2 ≠ docXY ∧
    (legacyServeExpress ((legacyServeExpress docXY ("") ⟨("/api-docs/X"), some ("X")⟩).2)
        ("") ⟨("/api-docs/全部"), some ("全部")⟩).1 ≠ .respond 200 docXY := by
  decide

/-- Reading around an insertion of an unrelated key is unchanged. -/
theorem lookupFirst_addToGroup_ne {q p : String} (h : q ≠ p)
    (gp : List (String × Json)) (m : String) (op : Json) :
    lookupFirst p (addToGroup gp q m op) = lookupFirst p gp := by
  unfold addToGroup
  split
  · exact lookupFirst_setField_ne h gp _
  · exact lookupFirst_setField_ne h gp _
  · rw [lookupFirst_append]
    cases hl : lookupFirst p gp <;> simp [lookupFirst, h, hl]

/-- The legacy filter's inner loop for one path touches no other path's
binding. -/
theorem lookup_foldl_filterStep_ne {g q p : String} (h : q ≠ p) :
    ∀ (l gp : List (String × Json)),
      lookupFirst p (l.foldl (filterStep g q) gp) = lookupFirst p gp
  | [], _ => rfl
  | me :: l, gp => by
    rw [List.foldl_cons, lookup_foldl_filterStep_ne h l _]
    unfold filterStep
    split
    · exact lookupFirst_addToGroup_ne h gp me.1 me.2
    · rfl

/-- The legacy filter's inner loop adds nothing when no method matches the
requested tag: the path's container is never even created. -/
theorem foldl_filterStep_no_match {g p : String} :
    ∀ (l gp : List (String × Json)),
      (∀ me ∈ l, opMatchesTag g me.2 = false) → l.foldl (filterStep g p) gp = gp
  | [], _, _ => rfl
  | me :: l, gp, h => by
    rw [List.foldl_cons]
    have h1 : filterStep g p gp me = gp := by
      unfold filterStep
      rw [h me (List.mem_cons_self me l)]
      simp
    rw [h1]
    exact foldl_filterStep_no_match l gp (fun x hx => h x (List.mem_cons_of_mem me hx))

/-- Through the legacy filter's outer loop, a key absent from the
accumulator stays absent as long as every entry carrying it has no matching
method. -/
theorem lookup_filterfold_none {g p : String} :
    ∀ (l gp : List (String × Json)),
      lookupFirst p gp = none →
      (∀ pe ∈ l, pe.1 = p → ∀ me ∈ jsEntries pe.2, opMatchesTag g me.2 = false) →
      lookupFirst p (l.foldl (filterPathEntry g) gp) = none
  | [], _, hgp, _ => hgp
  | pe :: l, gp, hgp, h => by
    rw [List.foldl_cons]
    refine lookup_filterfold_none l _ ?_ (fun x hx => h x (List.mem_cons_of_mem pe hx))
    by_cases hq : pe.1 = p
    · unfold filterPathEntry
      rw [hq, foldl_filterStep_no_match (jsEntries pe.2) gp (h pe (List.mem_cons_self pe l) hq)]
      exact hgp
    · unfold filterPathEntry
      rw [lookup_foldl_filterStep_ne hq (jsEntries pe.2) gp]
      exact hgp

/-- Claim C9 (counterexample): in the legacy per-tag filter, a path none of
whose methods carries the requested tag is omitted from the returned paths
mapping altogether — the key /b is absent, not present with an empty
object. -/
theorem C9_counterexample_unmatched_path_absent :
    (legacyServeExpress docXY ("") ⟨("/api-docs/X"), some ("X")⟩).1 =
      .respond 200 (setProp docXY ("paths") (.obj [(("/a"), .obj [(("get"), opTaggedX)])])) ∧
    getProp (setProp docXY ("paths") (.obj [(("/a"), .obj [(("get"), opTaggedX)])])) ("paths") =
      some (.obj [(("/a"), .obj [(("get"), opTaggedX)])]) ∧
    lookupFirst ("/b") [(("/a"), .obj [(("get"), opTaggedX)])] = none := by
  decide

/-- Claim C9 (amended): on a legacy tag-filtered request (path under
/api-docs/, group g neither 全部 nor empty), any path of the original
document all of whose entries lack a g-tagged method is left out of the
filtered paths mapping entirely: its key does not occur, because the filter
creates a path's container only upon the first matching method. -/
theorem C9_unmatched_path_omitted (dfs psf : List (String × Json))
    (g p pfx url : String)
    (hps : lookupFirst ("paths") dfs = some (.obj psf))
    (hp_in : p ∈ psf.map Prod.fst)
    (hnom : ∀ pe ∈ psf, pe.1 = p → ∀ me ∈ jsEntries pe.2, opMatchesTag g me.2 = false)
    (hurl : jsStartsWith url ("/api-docs/") = true)
    (hg1 : g ≠ ("全部")) (hg2 : g ≠ ("")) :
    legacyServeExpress (.obj dfs) pfx ⟨url, some g⟩ =
      (.respond 200 (.obj (setField dfs ("paths") (.obj (filterPaths g (some (.obj psf)))))),
       .obj (setField dfs ("paths") (.obj (filterPaths g (some (.obj psf)))))) ∧
    lookupFirst ("paths") (setField dfs ("paths") (.obj (filterPaths g (some (.obj psf))))) =
      some (.obj (filterPaths g (some (.obj psf)))) ∧
    lookupFirst p (filterPaths g (some (.obj psf))) = none := by
  have hne1 : url ≠ ("/v3/api-docs/swagger-config") := by
    intro he
    rw [he] at hurl
    exact absurd hurl (by decide)
  have hne2 : url ≠ ("/swagger-resources") := by
    intro he
    rw [he] at hurl
    exact absurd hurl (by decide)
  refine ⟨?_, lookupFirst_setField_self dfs _ _, ?_⟩
  · simp [legacyServeExpress, isValidDoc, hne1, hne2, hurl, hg1, hg2, getProp, hps, setProp]
  · unfold filterPaths
    simp only [jsTruthy, jsEntries, if_true]
    exact lookup_filterfold_none psf [] rfl hnom

/-- Claim C9 (amended), instantiated: in docXY the path /b has no X-tagged
method, and the filtered mapping for group X omits the key /b. -/
theorem C9_witness :
    lookupFirst ("paths") dfsXY = some (.obj pathsXY) ∧
    ("/b") ∈ pathsXY.map Prod.fst ∧
    (∀ pe ∈ pathsXY, pe.1 = ("/b") →
      ∀ me ∈ jsEntries pe.2, opMatchesTag ("X") me.2 = false) ∧
    jsStartsWith ("/api-docs/X") ("/api-docs/") = true ∧
    (legacyServeExpress (.obj dfsXY) ("") ⟨("/api-docs/X"), some ("X")⟩ =
      (.respond 200
        (.obj (setField dfsXY ("paths") (.obj (filterPaths ("X") (some (.obj pathsXY)))))),
       .obj (setField dfsXY ("paths") (.obj (filterPaths ("X") (some (.obj pathsXY)))))) ∧
     lookupFirst ("paths") (setField dfsXY ("paths") (.obj (filterPaths ("X") (some (.obj pathsXY))))) =
       some (.obj (filterPaths ("X") (some (.obj pathsXY)))) ∧
     lookupFirst ("/b") (filterPaths ("X") (some (.obj pathsXY))) = none) :=
  ⟨by decide, by decide, by decide, by decide,
   C9_unmatched_path_omitted dfsXY pathsXY ("X") ("/b") ("") ("/api-docs/X")
     (by decide) (by decide) (by decide) (by decide) (by decide) (by decide)⟩

/-- Claim C7: legacy tag filtering on a document whose paths hold one
operation under /a tagged X and one under /b tagged Y.  Requesting
/api-docs/X?groupName=X yields a document whose paths mapping binds /a to
its X-tagged operation and has no binding for /b; requesting with
groupName=全部 yields the document unchanged, with both paths present. -/
theorem C7_legacy_filter_scenario
    (dfs oaf obf : List (String × Json)) (m1 m2 : String) (pfx : String)
    (hp : lookupFirst ("paths") dfs =
      some (.obj [(("/a"), .obj [(m1, .obj oaf)]), (("/b"), .obj [(m2, .obj obf)])]))
    (ha : lookupFirst ("tags") oaf = some (.arr [.str ("X")]))
    (hb : lookupFirst ("tags") obf = some (.arr [.str ("Y")])) :
    legacyServeExpress (.obj dfs) pfx ⟨("/api-docs/X"), some ("X")⟩ =
      (.respond 200 (.obj (setField dfs ("paths") (.obj [(("/a"), .obj [(m1, .obj oaf)])]))),
       .obj (setField dfs ("paths") (.obj [(("/a"), .obj [(m1, .obj oaf)])]))) ∧
    lookupFirst ("paths") (setField dfs ("paths") (.obj [(("/a"), .obj [(m1, .obj oaf)])])) =
      some (.obj [(("/a"), .obj [(m1, .obj oaf)])]) ∧
    lookupFirst ("/a") [(("/a"), .obj [(m1, .obj oaf)])] = some (.obj [(m1, .obj oaf)]) ∧
    lookupFirst ("/b") [(("/a"), .obj [(m1, .obj oaf)])] = none ∧
    legacyServeExpress (.obj dfs) pfx ⟨("/api-docs/全部"), some ("全部")⟩ =
      (.respond 200 (.obj dfs), .obj dfs) := by
  have hmA : opMatchesTag ("X") (.obj oaf) = true := by
    simp only [opMatchesTag, getProp, jsTruthy, ha]
    decide
  have hmB : opMatchesTag ("X") (.obj obf) = false := by
    simp only [opMatchesTag, getProp, jsTruthy, hb]
    decide
  have hfil : filterPaths ("X")
      (some (.obj [(("/a"), .obj [(m1, .obj oaf)]), (("/b"), .obj [(m2, .obj obf)])])) =
      [(("/a"), .obj [(m1, .obj oaf)])] := by
    simp [filterPaths, jsTruthy, jsEntries, filterPathEntry, filterStep, hmA, hmB,
      addToGroup, lookupFirst]
  refine ⟨?_, ?_, ?_, ?_, ?_⟩
  · simp [legacyServeExpress, isValidDoc, getProp, hp, hfil, setProp,
      (by decide : ("/api-docs/X") ≠ ("/v3/api-docs/swagger-config")),
      (by decide : ("/api-docs/X") ≠ ("/swagger-resources")),
      (by decide : jsStartsWith ("/api-docs/X") ("/api-docs/") = true),
      (by decide : ("X") ≠ ("")), (by decide : ("X") ≠ ("全部"))]
  · exact lookupFirst_setField_self dfs ("paths") _
  · simp [lookupFirst]
  · simp [lookupFirst]
  · simp [legacyServeExpress, isValidDoc,
      (by decide : ("/api-docs/全部") ≠ ("/v3/api-docs/swagger-config")),
      (by decide : ("/api-docs/全部") ≠ ("/swagger-resources")),
      (by decide : jsStartsWith ("/api-docs/全部") ("/api-docs/") = true),
      (by decide : ("全部" : String) ≠ (""))]

/-- Claim C7, instantiated at the concrete scenario document. -/
theorem C7_witness :
    lookupFirst ("paths") dfsXY =
      some (.obj [(("/a"), .obj [(("get"), .obj [(("tags"), .arr [.str ("X")])])]),
                  (("/b"), .obj [(("get"), .obj [(("tags"), .arr [.str ("Y")])])])]) ∧
    lookupFirst ("tags") [(("tags"), Json.arr [.str ("X")])] = some (.arr [.str ("X")]) ∧
    lookupFirst ("tags") [(("tags"), Json.arr [.str ("Y")])] = some (.arr [.str ("Y")]) ∧
    (legacyServeExpress (.obj dfsXY) ("") ⟨("/api-docs/X"), some ("X")⟩ =
      (.respond 200 (.obj (setField dfsXY ("paths")
          (.obj [(("/a"), .obj [(("get"), .obj [(("tags"), .arr [.str ("X")])])])]))),
       .obj (setField dfsXY ("paths")
          (.obj [(("/a"), .obj [(("get"), .obj [(("tags"), .arr [.str ("X")])])])]))) ∧
     lookupFirst ("paths") (setField dfsXY ("paths")
          (.obj [(("/a"), .obj [(("get"), .obj [(("tags"), .arr [.str ("X")])])])])) =
       some (.obj [(("/a"), .obj [(("get"), .obj [(("tags"), .arr [.str ("X")])])])]) ∧
     lookupFirst ("/a") [(("/a"), .obj [(("get"), .obj [(("tags"), .arr [.str ("X")])])])] =
       some (.obj [(("get"), .obj [(("tags"), .arr [.str ("X")])])]) ∧
     lookupFirst ("/b") [(("/a"), .obj [(("get"), .obj [(("tags"), .arr [.str ("X")])])])] =
       none ∧
     legacyServeExpress (.obj dfsXY) ("") ⟨("/api-docs/全部"), some ("全部")⟩ =
       (.respond 200 (.obj dfsXY), .obj dfsXY)) :=
  ⟨by decide, by decide, by decide,
   C7_legacy_filter_scenario dfsXY
     [(("tags"), Json.arr [.str ("X")])] [(("tags"), Json.arr [.str ("Y")])]
     ("get") ("get") ("")
     (by decide) (by decide) (by decide)⟩

/-- Claim C8: on a valid, well-shaped document, the legacy swagger-config
endpoint answers with the whole stored document with the group list attached
under urls (and stores that mutated document), and /swagger-resources
answers with the same group list alone; the list starts with the fixed 全部
group and continues with exactly one group per distinct tag string occurring
in the operations' tags arrays — each occurring tag once, however many
operations carry it — every entry built by groupEntry with url
\x7bprefix\x7d/api-docs/\x7btag\x7d, swaggerVersion 3.0.0 and empty
servicePath. -/
theorem C8_legacy_discovery_groups (doc : Json) (pfx : String) (q : Option String)
    (hv : isValidDoc doc = true) (hw : wfDoc doc = true) :
    legacyServeExpress doc pfx ⟨("/v3/api-docs/swagger-config"), q⟩ =
      (.respond 200 (setProp doc ("urls") (.arr (legacyGroups pfx doc))),
       setProp doc ("urls") (.arr (legacyGroups pfx doc))) ∧
    legacyServeExpress doc pfx ⟨("/swagger-resources"), q⟩ =
      (.respond 200 (.arr (legacyGroups pfx doc)), doc) ∧
    legacyGroups pfx doc =
      groupEntry pfx ("全部") :: (collectTags doc).map (groupEntry pfx) ∧
    (collectTags doc).Nodup ∧
    (∀ t : String, t ∈ collectTags doc ↔ t ∈ allTags doc) := by
  refine ⟨?_, ?_, rfl, nodup_foldl_insertUnique (allTags doc) [] List.nodup_nil, ?_⟩
  · simp [legacyServeExpress, hv]
  · simp [legacyServeExpress, hv,
      (by decide : ("/swagger-resources") ≠ ("/v3/api-docs/swagger-config"))]
  · intro t
    rw [collectTags, mem_foldl_insertUnique]
    simp

/-- Claim C8, instantiated at a document whose operations share a tag, so
the group list carries each distinct tag once. -/
theorem C8_witness :
    isValidDoc docShared = true ∧
    wfDoc docShared = true ∧
    (legacyServeExpress docShared ("/doc") ⟨("/v3/api-docs/swagger-config"), none⟩ =
      (.respond 200 (setProp docShared ("urls") (.arr (legacyGroups ("/doc") docShared))),
       setProp docShared ("urls") (.arr (legacyGroups ("/doc") docShared))) ∧
     legacyServeExpress docShared ("/doc") ⟨("/swagger-resources"), none⟩ =
      (.respond 200 (.arr (legacyGroups ("/doc") docShared)), docShared) ∧
     legacyGroups ("/doc") docShared =
      groupEntry ("/doc") ("全部") :: (collectTags docShared).map (groupEntry ("/doc")) ∧
     (collectTags docShared).Nodup ∧
     (∀ t : String, t ∈ collectTags docShared ↔ t ∈ allTags docShared)) :=
  ⟨rfl, by decide,
   C8_legacy_discovery_groups docShared ("/doc") none rfl (by decide)⟩
